import Mathlib

/-!
Verification development for the final asyncio program of `longrunning.py`
(the "Conclusion" block): the coroutine `launchandview(cmd, endst)` pumping
a pexpect child's lines into a Streamlit pane, and the coordinator block
`loop.run_until_complete(asyncio.wait(tasks)); loop.close()`.

Modelling choices (shallow embedding):
* A `Command` describes one invocation of `launchandview`: the command line
  string `cmd`, the label stem `endst`, and the behaviour of the spawned OS
  process — the timed sequence of output lines it produces (`lineEvents`,
  times in tenths of a second), the time its streams reach EOF (`endTime`),
  its exit status (`exitstatus`, `none` when the process has no normal exit
  code, matching pexpect's `exitstatus is None` after a signal death), and
  whether `pexpect.spawn` succeeds (`spawnOk`).
* The pane built by `st.status`/`st.container`/`st.code` is a `Pane`:
  `content` is the list of lines accumulated by `content += line` (the
  source accumulates their concatenation; the displayed string is
  `String.join content`), `renders` records the payload of every `st.code`
  call (the source does `x.empty()` and then `x = st.code(content)` with the
  whole accumulated content), `status`/`label`/`expanded` mirror the
  `st.status` widget and its `stx.update(...)` badge.
* The coroutine body is cut at its `await asyncio.sleep(0)` suspension
  points into a small-step program (`TaskPC`, `stepTask`).  Reading the next
  line with `for line in child` is pexpect's synchronous `readline`: inside
  one step it advances the global virtual time to the line's arrival time
  (or to `endTime` for the EOF that ends the loop) without returning control
  to the scheduler; the `await asyncio.sleep(0)` that follows is the yield.
* The event loop of `asyncio.wait(tasks)` (default `ALL_COMPLETED`) is a
  round-robin scheduler `runCoord` over a queue of tasks; the queue order
  parameter models the unspecified iteration order of the task set built by
  `asyncio.wait`.  `asyncio.wait` raises `ValueError` when the task
  collection is empty, which `runUntilComplete` models with `Except.error`.
-/

namespace LongRunning

/-- The three `st.status` widget states used by the program: `running` when
created, `complete` when `stx.update(state="complete")` runs, `error` when
`stx.update(state="error")` runs. -/
inductive StStatusState
  | running
  | complete
  | error
deriving DecidableEq

/-- One invocation of `launchandview(cmd, endst)` together with the
behaviour of the OS process spawned for `cmd`. -/
structure Command where
  cmd : String
  endst : String
  lineEvents : List (Nat × String)
  endTime : Nat
  exitstatus : Option Int
  spawnOk : Bool
deriving DecidableEq

/-- The display region of one command: `st.status` plus the `st.code` widget
inside the `st.container(height=300)`.  `content` lists the lines appended
so far (the source keeps their concatenation in the string `content`);
`renders` logs the payload of each `st.code` call. -/
structure Pane where
  content : List String
  renders : List String
  status : StStatusState
  label : String
  expanded : Bool
deriving DecidableEq

/-- Control point of the `launchandview` coroutine, cut at its
`await asyncio.sleep(0)` suspension points: `start` is the body up to the
first await (spawn, `st.status`, `st.container`); `pumping evs` is the
`for line in child` loop with `evs` the line events not yet read; `final`
is after `child.close()` and the `stx.update` badge, before the last await;
`done` is a returned coroutine. -/
inductive TaskPC
  | start
  | pumping (pending : List (Nat × String))
  | final
  | done
deriving DecidableEq

/-- One pumping task: a `launchandview` coroutine scheduled by the event
loop. -/
structure Task where
  command : Command
  pc : TaskPC
  pane : Option Pane
deriving DecidableEq

/-- Python's `child.exitstatus == 0`: `exitstatus` is `None` when the
process died on a signal, and `None == 0` is `False` in Python. -/
def exitEqZero : Option Int → Bool
  | some c => c == 0
  | none => false

/-- The terminal state chosen by lines 246-247 of the source:
`state="complete"` when `child.exitstatus == 0`, `state="error"`
otherwise. -/
def classify (exitstatus : Option Int) : StStatusState :=
  if exitEqZero exitstatus then .complete else .error

/-- The pane as created by `st.status(cmd, expanded=True)` with the empty
code widget `x = st.code('')` inside the container. -/
def initPane (c : Command) : Pane :=
  { content := [], renders := [""], status := .running, label := c.cmd,
    expanded := true }

/-- The loop body `x.empty(); content += line; x = st.code(content)`: the
line joins the buffer, and the fresh `st.code` call is handed the entire
accumulated content. -/
def appendLine (line : String) (p : Pane) : Pane :=
  { p with content := p.content ++ [line],
           renders := p.renders ++ [String.join (p.content ++ [line])] }

/-- Lines 246-247 of the source: `stx.update(label=f"{endst}: Complete'",
state="complete", expanded=False)` when `child.exitstatus == 0`, else
`stx.update(label=f"{endst}: Ended with errors'", state="error",
expanded=False)`. -/
def applyBadge (c : Command) (p : Pane) : Pane :=
  if exitEqZero c.exitstatus then
    { p with status := .complete, label := c.endst ++ ": Complete\x27",
             expanded := false }
  else
    { p with status := .error,
             label := c.endst ++ ": Ended with errors\x27",
             expanded := false }

/-- Result of running one task until its next suspension point: the new
virtual time, the new task state, and the finalization event (time, command
line, terminal state) when this step wrote the badge. -/
structure StepOut where
  time : Nat
  task : Task
  fin : Option (Nat × String × StStatusState)

/-- One step of the `launchandview` coroutine, from one
`await asyncio.sleep(0)` to the next.  A `pumping` step performs the
synchronous pexpect `readline`, which blocks the whole event loop until the
line arrives (`max time tm`) — only the `await asyncio.sleep(0)` after the
`st.code` call yields.  The EOF read at the end of the loop likewise blocks
until the process's streams close (`max time c.endTime`); `child.close()`
and the `stx.update` badge follow in the same step.  A failing
`pexpect.spawn` raises before the pane exists, ending the coroutine with an
exception (pane stays `none`). -/
def stepTask (time : Nat) (t : Task) : StepOut :=
  match t with
  | ⟨c, .start, pane⟩ =>
      if c.spawnOk then
        ⟨time, ⟨c, .pumping c.lineEvents, some (initPane c)⟩, none⟩
      else
        ⟨time, ⟨c, .done, pane⟩, none⟩
  | ⟨c, .pumping ((tm, line) :: rest), pane⟩ =>
      ⟨max time tm, ⟨c, .pumping rest, pane.map (appendLine line)⟩, none⟩
  | ⟨c, .pumping [], pane⟩ =>
      ⟨max time c.endTime,
       ⟨c, .final, pane.map (applyBadge c)⟩,
       some (max time c.endTime, c.cmd, classify c.exitstatus)⟩
  | ⟨c, .final, pane⟩ => ⟨time, ⟨c, .done, pane⟩, none⟩
  | ⟨c, .done, pane⟩ => ⟨time, ⟨c, .done, pane⟩, none⟩

/-- State of the event loop running `asyncio.wait(tasks)`: the ready queue
(round-robin), the completed tasks in completion order, and the log of
badge finalizations in the order they were written. -/
structure Coord where
  time : Nat
  queue : List Task
  finished : List Task
  finLog : List (Nat × String × StStatusState)
deriving DecidableEq

/-- One scheduling turn: the task at the head of the ready queue runs until
its next `await asyncio.sleep(0)`; a task whose coroutine returned moves to
`finished`, otherwise it requeues at the back. -/
def stepCoord (st : Coord) : Coord :=
  match st.queue with
  | [] => st
  | t :: rest =>
    let o := stepTask st.time t
    let log := match o.fin with
      | some e => st.finLog ++ [e]
      | none => st.finLog
    if o.task.pc = .done then
      { time := o.time, queue := rest, finished := st.finished ++ [o.task],
        finLog := log }
    else
      { time := o.time, queue := rest ++ [o.task], finished := st.finished,
        finLog := log }

/-- Fuel-indexed run of the event loop until the ready queue is empty
(`asyncio.wait` with the default `ALL_COMPLETED`). -/
def runCoord : Nat → Coord → Coord
  | 0, st => st
  | fuel + 1, st =>
    match st.queue with
    | [] => st
    | _ :: _ => runCoord fuel (stepCoord st)

/-- A freshly scheduled `launchandview(c.cmd, c.endst)` coroutine. -/
def mkTask (c : Command) : Task := { command := c, pc := .start, pane := none }

/-- The event loop state right after `tasks` has been built by the `if`
chain and handed to `asyncio.wait`: all coroutines pending, nothing run.
The list order models the unspecified iteration order of the set
`asyncio.wait` builds from the task collection. -/
def initCoord (cs : List Command) : Coord :=
  { time := 0, queue := cs.map mkTask, finished := [], finLog := [] }

/-- Number of scheduling turns a task still needs before its coroutine
returns. -/
def taskMeasure (t : Task) : Nat :=
  match t.pc with
  | .start => t.command.lineEvents.length + 3
  | .pumping evs => evs.length + 2
  | .final => 1
  | .done => 0

/-- Total scheduling turns still needed by the queued tasks. -/
def coordMeasure (st : Coord) : Nat := (st.queue.map taskMeasure).sum

/-- Enough fuel for `runCoord` to drain the queue. -/
def coordFuel (st : Coord) : Nat := coordMeasure st + st.queue.length

/-- Lines 256-264 of the source: build the selected tasks, then
`loop.run_until_complete(asyncio.wait(tasks))`.  `asyncio.wait` raises
`ValueError` when the task collection is empty, which surfaces out of
`run_until_complete`. -/
def runUntilComplete (cs : List Command) : Except String Coord :=
  if cs = [] then .error "ValueError: Set of coroutines/Futures is empty."
  else .ok (runCoord (coordFuel (initCoord cs)) (initCoord cs))

/-- Fuel-indexed run of a single task on its own (the other tasks' steps do
not touch it; interleaving only shifts the virtual time, which no pane
field depends on). -/
def runTask : Nat → Nat → Task → Task
  | 0, _, t => t
  | fuel + 1, time, t =>
    let o := stepTask time t
    runTask fuel o.time o.task

/-- Final task state of a single `launchandview(c.cmd, c.endst)` run. -/
def runOne (c : Command) : Task :=
  runTask (taskMeasure (mkTask c)) 0 (mkTask c)

/-- The lines the pump reads from the child, in arrival order. -/
def eventLines (evs : List (Nat × String)) : List String := evs.map Prod.snd

/-- The lines a command's pump appends to its pane, in order. -/
def pumpLines (c : Command) : List String := eventLines c.lineEvents

/-- Payloads of the successive `st.code(content)` calls made while pumping
`ls` into a pane that already holds `acc`: every call is handed the entire
accumulated content. -/
def replayRenders (acc : List String) : List String → List String
  | [] => []
  | l :: ls => String.join (acc ++ [l]) :: replayRenders (acc ++ [l]) ls

/-- The sequence of task states a single run visits, one per scheduling
turn. -/
def taskStates : Nat → Nat → Task → List Task
  | 0, _, _ => []
  | fuel + 1, time, t =>
    let o := stepTask time t
    o.task :: taskStates fuel o.time o.task

/-- The pane status after each scheduling turn of a single
`launchandview` run (`none` while no pane exists). -/
def statusTrace (c : Command) : List (Option StStatusState) :=
  (taskStates (taskMeasure (mkTask c)) 0 (mkTask c)).map
    (fun t => t.pane.map Pane.status)

end LongRunning

namespace LongRunning

/-! ## Basic step lemmas -/

/-- A step never changes which command a task is running. -/
lemma stepTask_command (time : Nat) (t : Task) :
    (stepTask time t).task.command = t.command := by
  rcases t with ⟨c, pc, pane⟩
  cases pc with
  | start => by_cases h : c.spawnOk <;> simp [stepTask, h]
  | pumping evs =>
    cases evs with
    | nil => simp [stepTask]
    | cons e rest => rcases e with ⟨tm, line⟩; simp [stepTask]
  | final => simp [stepTask]
  | done => simp [stepTask]

/-- A finished coroutine is left untouched by further scheduling turns. -/
lemma stepTask_done (time : Nat) (t : Task) (h : t.pc = .done) :
    stepTask time t = ⟨time, t, none⟩ := by
  rcases t with ⟨c, pc, pane⟩
  cases pc with
  | done => simp [stepTask]
  | start => simp at h
  | pumping evs => simp at h
  | final => simp at h

/-- The badge writes the state classified from the exit status. -/
lemma applyBadge_status (c : Command) (p : Pane) :
    (applyBadge c p).status = classify c.exitstatus := by
  by_cases h : exitEqZero c.exitstatus <;> simp [applyBadge, classify, h]

/-- The badge leaves the accumulated content alone. -/
lemma applyBadge_content (c : Command) (p : Pane) :
    (applyBadge c p).content = p.content := by
  by_cases h : exitEqZero c.exitstatus <;> simp [applyBadge, h]

/-- The badge issues no `st.code` call. -/
lemma applyBadge_renders (c : Command) (p : Pane) :
    (applyBadge c p).renders = p.renders := by
  by_cases h : exitEqZero c.exitstatus <;> simp [applyBadge, h]

/-- The classified terminal state is never the running state. -/
lemma classify_ne_running (e : Option Int) : classify e ≠ .running := by
  by_cases h : exitEqZero e <;> simp [classify, h]

/-- The classified terminal state is `complete` or `error`. -/
lemma classify_terminal (e : Option Int) :
    classify e = .complete ∨ classify e = .error := by
  by_cases h : exitEqZero e <;> simp [classify, h]

/-- Running a finished task is the identity, whatever the fuel. -/
lemma runTask_done (fuel time : Nat) (t : Task) (h : t.pc = .done) :
    runTask fuel time t = t := by
  induction fuel generalizing time with
  | zero => rfl
  | succ fuel ih => rw [runTask, stepTask_done time t h]; exact ih time

/-! ## Characterization of a single pumping run -/

/-- Running a task that sits at the top of the `for line in child` loop with
`evs` still to read: after `evs.length + 2` turns the coroutine has
returned, having appended exactly the pumped lines in arrival order,
re-rendered the full accumulated content at each line, and written the
badge classified from the exit status. -/
lemma runTask_from_pumping :
    ∀ (evs : List (Nat × String)) (time : Nat) (t : Task) (p : Pane),
      t.pc = .pumping evs → t.pane = some p →
      (runTask (evs.length + 2) time t).pc = .done ∧
      (runTask (evs.length + 2) time t).command = t.command ∧
      ∃ q : Pane,
        (runTask (evs.length + 2) time t).pane = some q ∧
        q.content = p.content ++ eventLines evs ∧
        q.renders = p.renders ++ replayRenders p.content (eventLines evs) ∧
        q.status = classify t.command.exitstatus := by
  intro evs
  induction evs with
  | nil =>
    intro time t p hpc hpane
    rcases t with ⟨c, pc, pane⟩
    subst hpc
    simp only [Task.pane] at hpane
    subst hpane
    refine ⟨rfl, rfl, applyBadge c p, rfl, ?_, ?_, ?_⟩
    · simp [eventLines, applyBadge_content]
    · simp [eventLines, replayRenders, applyBadge_renders]
    · exact applyBadge_status c p
  | cons e rest ih =>
    intro time t p hpc hpane
    rcases e with ⟨tm, line⟩
    rcases t with ⟨c, pc, pane⟩
    subst hpc
    simp only [Task.pane] at hpane
    subst hpane
    have hstep :
        runTask ((((tm, line) :: rest).length) + 2) time
            ⟨c, .pumping ((tm, line) :: rest), some p⟩ =
          runTask (rest.length + 2) (max time tm)
            ⟨c, .pumping rest, some (appendLine line p)⟩ := by
      simp [runTask, stepTask]
    rw [hstep]
    obtain ⟨h1, h2, q, hq, hcont, hrend, hstat⟩ :=
      ih (max time tm) ⟨c, .pumping rest, some (appendLine line p)⟩
        (appendLine line p) rfl rfl
    refine ⟨h1, h2, q, hq, ?_, ?_, hstat⟩
    · rw [hcont]; simp [appendLine, eventLines]
    · rw [hrend]; simp [appendLine, eventLines, replayRenders]

/-- End-to-end characterization of one `launchandview` run whose spawn
succeeds: the coroutine returns with a pane holding exactly the pumped
lines in order, the full `st.code` replay log, and the badge classified
from the exit status. -/
lemma runOne_char (c : Command) (h : c.spawnOk = true) :
    (runOne c).pc = .done ∧
    (runOne c).command = c ∧
    ∃ q : Pane,
      (runOne c).pane = some q ∧
      q.content = pumpLines c ∧
      q.renders = "" :: replayRenders [] (pumpLines c) ∧
      q.status = classify c.exitstatus := by
  have hstep :
      runOne c =
        runTask (c.lineEvents.length + 2) 0
          ⟨c, .pumping c.lineEvents, some (initPane c)⟩ := by
    simp [runOne, runTask, taskMeasure, mkTask, stepTask, h]
  obtain ⟨h1, h2, q, hq, hcont, hrend, hstat⟩ :=
    runTask_from_pumping c.lineEvents 0
      ⟨c, .pumping c.lineEvents, some (initPane c)⟩ (initPane c) rfl rfl
  rw [hstep]
  exact ⟨h1, h2, q, hq, by simpa [initPane, pumpLines] using hcont,
    by simpa [initPane, pumpLines] using hrend, hstat⟩

end LongRunning

namespace LongRunning

/-! ## Scheduler fuel and invariants -/

/-- A scheduling turn never increases the turns a task still needs. -/
lemma stepTask_measure_le (time : Nat) (t : Task) :
    taskMeasure (stepTask time t).task ≤ taskMeasure t := by
  rcases t with ⟨c, pc, pane⟩
  cases pc with
  | start => by_cases h : c.spawnOk <;> simp [stepTask, h, taskMeasure]
  | pumping evs =>
    cases evs with
    | nil => simp [stepTask, taskMeasure]
    | cons e rest => rcases e with ⟨tm, line⟩; simp [stepTask, taskMeasure]
  | final => simp [stepTask, taskMeasure]
  | done => simp [stepTask, taskMeasure]

/-- A scheduling turn strictly decreases the turns an unfinished task still
needs. -/
lemma stepTask_measure_lt (time : Nat) (t : Task) (h : t.pc ≠ .done) :
    taskMeasure (stepTask time t).task < taskMeasure t := by
  rcases t with ⟨c, pc, pane⟩
  cases pc with
  | start =>
    by_cases hs : c.spawnOk
    · simp [stepTask, hs, taskMeasure]
    · simp only [stepTask, hs, taskMeasure, Bool.false_eq_true, if_false]
      omega
  | pumping evs =>
    cases evs with
    | nil => simp [stepTask, taskMeasure]
    | cons e rest => rcases e with ⟨tm, line⟩; simp [stepTask, taskMeasure]
  | final => simp [stepTask, taskMeasure]
  | done => simp at h

/-- A scheduling turn on a nonempty queue strictly decreases the fuel
bound. -/
lemma coordFuel_step_lt (st : Coord) (h : st.queue ≠ []) :
    coordFuel (stepCoord st) < coordFuel st := by
  rcases hst : st.queue with _ | ⟨t, rest⟩
  · exact absurd hst h
  · by_cases hd : (stepTask st.time t).task.pc = .done
    · have hle := stepTask_measure_le st.time t
      cases hfin : (stepTask st.time t).fin <;>
        simp [stepCoord, hst, hd, hfin, coordFuel, coordMeasure] <;> omega
    · have htne : t.pc ≠ .done := by
        intro hdone
        rw [stepTask_done st.time t hdone] at hd
        exact hd hdone
      have hlt := stepTask_measure_lt st.time t htne
      cases hfin : (stepTask st.time t).fin <;>
        simp [stepCoord, hst, hd, hfin, coordFuel, coordMeasure] <;> omega

/-- With fuel at least the fuel bound, the event loop drains its queue:
`asyncio.wait(..., return_when=ALL_COMPLETED)` returns only when every task
has completed. -/
lemma runCoord_queue_nil :
    ∀ (fuel : Nat) (st : Coord), coordFuel st ≤ fuel →
      (runCoord fuel st).queue = [] := by
  intro fuel
  induction fuel with
  | zero =>
    intro st hle
    have hq : st.queue.length ≤ coordFuel st := Nat.le_add_left _ _
    have hz : st.queue.length = 0 := by omega
    simpa [runCoord] using List.length_eq_zero.mp hz
  | succ fuel ih =>
    intro st hle
    rcases hst : st.queue with _ | ⟨t, rest⟩
    · simp [runCoord, hst]
    · have hne : st.queue ≠ [] := by simp [hst]
      have hlt := coordFuel_step_lt st hne
      have : coordFuel (stepCoord st) ≤ fuel := by omega
      simpa [runCoord, hst] using ih (stepCoord st) this

/-- A scheduling turn preserves the number of tasks the loop owns. -/
lemma stepCoord_count (st : Coord) (h : st.queue ≠ []) :
    (stepCoord st).queue.length + (stepCoord st).finished.length =
      st.queue.length + st.finished.length := by
  rcases hst : st.queue with _ | ⟨t, rest⟩
  · exact absurd hst h
  · by_cases hd : (stepTask st.time t).task.pc = .done <;>
      cases hfin : (stepTask st.time t).fin <;>
      simp [stepCoord, hst, hd, hfin] <;> omega

/-- The event loop neither loses nor invents tasks. -/
lemma runCoord_count :
    ∀ (fuel : Nat) (st : Coord),
      (runCoord fuel st).queue.length + (runCoord fuel st).finished.length =
        st.queue.length + st.finished.length := by
  intro fuel
  induction fuel with
  | zero => intro st; simp [runCoord]
  | succ fuel ih =>
    intro st
    rcases hst : st.queue with _ | ⟨t, rest⟩
    · simp [runCoord, hst]
    · have hne : st.queue ≠ [] := by simp [hst]
      have h1 := stepCoord_count st hne
      have h3 : runCoord (fuel + 1) st = runCoord fuel (stepCoord st) := by
        simp [runCoord, hst]
      rw [hst] at h1
      rw [h3, ih (stepCoord st)]
      exact h1

/-- The per-task state invariant tying the control point to the pane: no
pane before the spawn; a live running pane while pumping; a badged terminal
pane after the badge; and, for a returned coroutine whose spawn succeeded,
a terminal pane. -/
def TaskInv (t : Task) : Prop :=
  match t.pc with
  | .start => t.pane = none
  | .pumping _ => ∃ p, t.pane = some p ∧ p.status = .running
  | .final =>
      ∃ p, t.pane = some p ∧ (p.status = .complete ∨ p.status = .error)
  | .done =>
      t.command.spawnOk = true →
        ∃ p, t.pane = some p ∧ (p.status = .complete ∨ p.status = .error)

/-- The invariant is preserved by every scheduling turn of a task. -/
lemma stepTask_inv (time : Nat) (t : Task) (h : TaskInv t) :
    TaskInv (stepTask time t).task := by
  rcases t with ⟨c, pc, pane⟩
  cases pc with
  | start =>
    by_cases hs : c.spawnOk
    · simp [stepTask, hs, TaskInv, initPane]
    · simp [stepTask, hs, TaskInv]
  | pumping evs =>
    cases evs with
    | nil =>
      simp only [TaskInv] at h
      obtain ⟨p, hp, hst⟩ := h
      subst hp
      simp only [stepTask, TaskInv, Option.map_some]
      exact ⟨applyBadge c p, rfl, by rw [applyBadge_status]; exact classify_terminal _⟩
    | cons e rest =>
      rcases e with ⟨tm, line⟩
      simp only [TaskInv] at h
      obtain ⟨p, hp, hst⟩ := h
      subst hp
      simp only [stepTask, TaskInv, Option.map_some]
      exact ⟨appendLine line p, rfl, by simp [appendLine, hst]⟩
  | final =>
    simp only [TaskInv] at h
    obtain ⟨p, hp, hst⟩ := h
    simp only [stepTask, TaskInv]
    exact fun _ => ⟨p, hp, hst⟩
  | done =>
    simp only [stepTask, TaskInv]
    simp only [TaskInv] at h
    exact h

/-- The event-loop invariant: every queued task satisfies the task
invariant, and every finished task has returned and satisfies it. -/
def CoordInv (st : Coord) : Prop :=
  (∀ t ∈ st.queue, TaskInv t) ∧
    (∀ t ∈ st.finished, t.pc = .done ∧ TaskInv t)

/-- One scheduling turn preserves the event-loop invariant. -/
lemma stepCoord_inv (st : Coord) (h : CoordInv st) :
    CoordInv (stepCoord st) := by
  obtain ⟨hq, hf⟩ := h
  rcases hst : st.queue with _ | ⟨t, rest⟩
  · simpa [stepCoord, hst] using ⟨by simp [hst] at hq ⊢, hf⟩
  · have htinv : TaskInv t := hq t (by simp [hst])
    have hrest : ∀ u ∈ rest, TaskInv u := fun u hu => hq u (by simp [hst, hu])
    have hstep : TaskInv (stepTask st.time t).task := stepTask_inv st.time t htinv
    by_cases hd : (stepTask st.time t).task.pc = .done <;>
      cases hfin : (stepTask st.time t).fin
    all_goals
      simp only [stepCoord, hst, hfin, hd, if_true, if_false, CoordInv,
        reduceIte]
    · exact ⟨hrest, by
        intro u hu
        rcases List.mem_append.mp hu with hu | hu
        · exact hf u hu
        · rcases List.mem_singleton.mp hu with rfl
          exact ⟨hd, hstep⟩⟩
    · exact ⟨hrest, by
        intro u hu
        rcases List.mem_append.mp hu with hu | hu
        · exact hf u hu
        · rcases List.mem_singleton.mp hu with rfl
          exact ⟨hd, hstep⟩⟩
    · refine ⟨?_, hf⟩
      intro u hu
      rcases List.mem_append.mp hu with hu | hu
      · exact hrest u hu
      · rcases List.mem_singleton.mp hu with rfl
        exact hstep
    · refine ⟨?_, hf⟩
      intro u hu
      rcases List.mem_append.mp hu with hu | hu
      · exact hrest u hu
      · rcases List.mem_singleton.mp hu with rfl
        exact hstep

/-- The whole event-loop run preserves the invariant. -/
lemma runCoord_inv :
    ∀ (fuel : Nat) (st : Coord), CoordInv st → CoordInv (runCoord fuel st) := by
  intro fuel
  induction fuel with
  | zero => intro st h; simpa [runCoord] using h
  | succ fuel ih =>
    intro st h
    rcases hst : st.queue with _ | ⟨t, rest⟩
    · simpa [runCoord, hst] using h
    · simpa [runCoord, hst] using ih (stepCoord st) (stepCoord_inv st h)

/-- The freshly built task set satisfies the invariant. -/
lemma initCoord_inv (cs : List Command) : CoordInv (initCoord cs) := by
  constructor
  · intro t ht
    simp only [initCoord, List.mem_map] at ht
    obtain ⟨c, _, rfl⟩ := ht
    simp [TaskInv, mkTask]
  · intro t ht
    simp [initCoord] at ht

end LongRunning

namespace LongRunning

/-! ## Derived characterizations -/

/-- Each `st.code` call while pumping is handed the join of the whole
accumulated buffer, i.e. the render after the `(i+1)`-st line replays every
line read so far. -/
lemma replayRenders_eq :
    ∀ (ls acc : List String),
      replayRenders acc ls =
        (List.range ls.length).map
          (fun i => String.join (acc ++ ls.take (i + 1))) := by
  intro ls
  induction ls with
  | nil => intro acc; simp [replayRenders]
  | cons l ls ih =>
    intro acc
    rw [replayRenders, ih (acc ++ [l])]
    rw [List.length_cons, List.range_succ_eq_map, List.map_cons, List.map_map]
    simp [Function.comp, List.take_succ_cons, List.append_assoc]

/-- The badge is `complete` exactly for a reported exit status of `0`; a
missing exit status (`None`) never classifies as `complete`. -/
lemma classify_eq_complete_iff (e : Option Int) :
    classify e = .complete ↔ e = some 0 := by
  rcases e with _ | n
  · simp [classify, exitEqZero]
  · by_cases h : n = 0 <;> simp [classify, exitEqZero, h]

/-- Pane statuses along the rest of a run that sits at the top of the pump
loop: still `running` for each pumped line, then the classified terminal
state for the badge turn and the final turn, with no later change. -/
lemma taskStates_pumping :
    ∀ (evs : List (Nat × String)) (time : Nat) (t : Task) (p : Pane),
      t.pc = .pumping evs → t.pane = some p → p.status = .running →
      (taskStates (evs.length + 2) time t).map (fun u => u.pane.map Pane.status) =
        List.replicate evs.length (some StStatusState.running) ++
          [some (classify t.command.exitstatus),
           some (classify t.command.exitstatus)] := by
  intro evs
  induction evs with
  | nil =>
    intro time t p hpc hpane hrun
    rcases t with ⟨c, pc, pane⟩
    subst hpc
    simp only [Task.pane] at hpane
    subst hpane
    simp [taskStates, stepTask, applyBadge_status]
  | cons e rest ih =>
    intro time t p hpc hpane hrun
    rcases e with ⟨tm, line⟩
    rcases t with ⟨c, pc, pane⟩
    subst hpc
    simp only [Task.pane] at hpane
    subst hpane
    have hstep :
        taskStates ((((tm, line) :: rest).length) + 2) time
            ⟨c, .pumping ((tm, line) :: rest), some p⟩ =
          ⟨c, .pumping rest, some (appendLine line p)⟩ ::
            taskStates (rest.length + 2) (max time tm)
              ⟨c, .pumping rest, some (appendLine line p)⟩ := by
      simp [taskStates, stepTask]
    rw [hstep, List.map_cons,
      ih (max time tm) ⟨c, .pumping rest, some (appendLine line p)⟩
        (appendLine line p) rfl rfl (by simp [appendLine, hrun])]
    simp [appendLine, hrun, List.replicate_succ]

/-- Full characterization of the coordinator run on a nonempty selection:
`run_until_complete` returns a final state whose ready queue is drained,
whose finished list holds every selected command, and in which every task
whose spawn succeeded carries a terminal badge. -/
lemma runUntilComplete_all_terminal (cs : List Command) (hne : cs ≠ []) :
    ∃ fin, runUntilComplete cs = Except.ok fin ∧
      fin.queue = [] ∧
      fin.finished.length = cs.length ∧
      ∀ t ∈ fin.finished, t.command.spawnOk = true →
        (t.pane.map Pane.status = some StStatusState.complete ∨
         t.pane.map Pane.status = some StStatusState.error) := by
  refine ⟨runCoord (coordFuel (initCoord cs)) (initCoord cs), ?_, ?_, ?_, ?_⟩
  · simp [runUntilComplete, hne]
  · exact runCoord_queue_nil _ _ le_rfl
  · have h1 := runCoord_count (coordFuel (initCoord cs)) (initCoord cs)
    have h2 := runCoord_queue_nil (coordFuel (initCoord cs)) (initCoord cs) le_rfl
    rw [h2] at h1
    simpa [initCoord] using h1
  · intro t ht hspawn
    have hinv := runCoord_inv (coordFuel (initCoord cs)) (initCoord cs)
      (initCoord_inv cs)
    obtain ⟨-, hfin⟩ := hinv
    obtain ⟨hdone, htinv⟩ := hfin t ht
    simp only [TaskInv, hdone] at htinv
    obtain ⟨p, hp, hterm⟩ := htinv hspawn
    rw [hp]
    rcases hterm with h | h
    · exact Or.inl (by simp [h])
    · exact Or.inr (by simp [h])

end LongRunning

namespace LongRunning

/-! ## Concrete commands used by witnesses and counterexamples -/

/-- A run that exits 0 after emitting one line. -/
def c1demo : Command :=
  { cmd := "python3 /tmp/extprg.py Joe 10 2", endst := "python3 /tmp/extprg.py Joe",
    lineEvents := [(3, "My name is Joe and this is message 0 sent to stdout\r\n")],
    endTime := 9, exitstatus := some 0, spawnOk := true }

/-- The slowly finishing command of the two-command scenario: sleeps 2 s
(20 tenths), emits nothing, exits 1. -/
def slowC : Command :=
  { cmd := "python3 /tmp/slow.py", endst := "slow", lineEvents := [],
    endTime := 20, exitstatus := some 1, spawnOk := true }

/-- The quickly finishing command of the two-command scenario: sleeps 0.1 s
(1 tenth), emits nothing, exits 0. -/
def fastC : Command :=
  { cmd := "python3 /tmp/fast.py", endst := "fast", lineEvents := [],
    endTime := 1, exitstatus := some 0, spawnOk := true }

/-- A run emitting three lines, used against a would-be retention limit of
two lines. -/
def c3demo : Command :=
  { cmd := "tail -f /tmp/log", endst := "tail",
    lineEvents := [(1, "l1\n"), (2, "l2\n"), (3, "l3\n")],
    endTime := 4, exitstatus := some 0, spawnOk := true }

/-- A run emitting three lines, used to inspect the `st.code` payloads. -/
def c4demo : Command :=
  { cmd := "cat /tmp/three", endst := "cat",
    lineEvents := [(1, "u\n"), (2, "v\n"), (3, "w\n")],
    endTime := 4, exitstatus := some 0, spawnOk := true }

/-- A succeeding selected command. -/
def c5a : Command :=
  { cmd := "python3 /tmp/extprg.py Jack 10 2", endst := "python3 /tmp/extprg.py Jack",
    lineEvents := [(2, "My name is Jack and this is message 0 sent to stderr\r\n")],
    endTime := 8, exitstatus := some 0, spawnOk := true }

/-- A failing selected command. -/
def c5b : Command :=
  { cmd := "python3 /tmp/extprg.py Averell 10 2",
    endst := "python3 /tmp/extprg.py Averell",
    lineEvents := [], endTime := 5, exitstatus := some 1, spawnOk := true }

/-- A command whose executable cannot be spawned. -/
def c6bad : Command :=
  { cmd := "python4 /tmp/extprg.py Joe 10 2", endst := "python4",
    lineEvents := [], endTime := 0, exitstatus := none, spawnOk := false }

/-- A command exiting with a non-success code. -/
def c6err : Command :=
  { cmd := "python3 /tmp/extprg.py William 10 2",
    endst := "python3 /tmp/extprg.py William",
    lineEvents := [(1, "My name is William and this is message 0 sent to stdout\r\n")],
    endTime := 6, exitstatus := some 2, spawnOk := true }

/-- A sibling command that succeeds. -/
def c6ok : Command :=
  { cmd := "python3 /tmp/extprg.py Joe 10 2", endst := "python3 /tmp/extprg.py Joe",
    lineEvents := [(2, "My name is Joe and this is message 1 sent to stderr\r\n")],
    endTime := 7, exitstatus := some 0, spawnOk := true }

/-- A run emitting two lines, used to inspect buffer order. -/
def c7demo : Command :=
  { cmd := "echo two", endst := "echo",
    lineEvents := [(1, "first\n"), (2, "second\n")],
    endTime := 3, exitstatus := some 0, spawnOk := true }

/-- A run emitting one line, used to inspect the status trace. -/
def c8demo : Command :=
  { cmd := "echo one", endst := "echo",
    lineEvents := [(1, "only\n")],
    endTime := 2, exitstatus := some 0, spawnOk := true }

/-- A run whose process was killed by a signal: pexpect reports
`exitstatus is None`. -/
def c10demo : Command :=
  { cmd := "sleep 100", endst := "sleep",
    lineEvents := [], endTime := 4, exitstatus := none, spawnOk := true }

end LongRunning

namespace LongRunning

/-! ## Claims -/

/-- C1: for every completed command run, the terminal status shown on its
pane is determined by the exit code via the success predicate
`child.exitstatus == 0`: exit code 0 yields the `complete` badge, any other
exit code yields the `error` badge. -/
theorem C1_exit_code_determines_status (c : Command) (n : Int)
    (hspawn : c.spawnOk = true) (hexit : c.exitstatus = some n) :
    (runOne c).pane.map Pane.status =
      some (if n = 0 then StStatusState.complete else StStatusState.error) := by
  obtain ⟨-, -, q, hq, -, -, hstat⟩ := runOne_char c hspawn
  rw [hq]
  simp only [Option.map_some', Option.some.injEq]
  rw [hstat, hexit]
  by_cases h : n = 0 <;> simp [classify, exitEqZero, h]

/-- Witness for C1: the command exiting 0 ends with the `complete` badge. -/
theorem C1_exit_code_determines_status_witness :
    (runOne c1demo).pane.map Pane.status =
      some (if (0 : Int) = 0 then StStatusState.complete else StStatusState.error) :=
  C1_exit_code_determines_status c1demo 0 rfl rfl

/-- C10: a run whose process terminates without a normal exit code
(pexpect reports `exitstatus is None`) is classified `error`, because
Python's `None == 0` is `False`; the `complete` badge appears exactly when
the reported exit status is the integer 0. -/
theorem C10_missing_exit_code_is_error (c : Command)
    (hspawn : c.spawnOk = true) :
    ((runOne c).pane.map Pane.status = some StStatusState.complete ↔
      c.exitstatus = some 0) ∧
    (c.exitstatus = none →
      (runOne c).pane.map Pane.status = some StStatusState.error) := by
  obtain ⟨-, -, q, hq, -, -, hstat⟩ := runOne_char c hspawn
  constructor
  · rw [hq]
    simp only [Option.map_some', Option.some.injEq]
    rw [hstat]
    exact classify_eq_complete_iff _
  · intro hnone
    rw [hq]
    simp [hstat, hnone, classify, exitEqZero]

/-- Witness for C10: a signal-killed process (no exit code) ends with the
`error` badge. -/
theorem C10_missing_exit_code_is_error_witness :
    (runOne c10demo).pane.map Pane.status = some StStatusState.error :=
  (C10_missing_exit_code_is_error c10demo rfl).2 rfl

/-- C7: the sequence of lines held in a pane's buffer equals, in order, the
sequence of lines the pump read from the command's output stream — no
reordering and no loss (the code has no retention limit, so the qualifier
"up to the retention limit" is vacuous). -/
theorem C7_buffer_equals_pump_order (c : Command) (hspawn : c.spawnOk = true) :
    (runOne c).pane.map Pane.content = some (pumpLines c) := by
  obtain ⟨-, -, q, hq, hcont, -, -⟩ := runOne_char c hspawn
  rw [hq]
  simp [hcont]

/-- Witness for C7: a two-line run buffers exactly its two lines in
order. -/
theorem C7_buffer_equals_pump_order_witness :
    (runOne c7demo).pane.map Pane.content = some (pumpLines c7demo) :=
  C7_buffer_equals_pump_order c7demo rfl

/-- C9: triggering the run with an empty selection (no checkbox checked)
is a failing input, not a no-op: `asyncio.wait` raises `ValueError` on an
empty task collection, which surfaces out of
`loop.run_until_complete`. -/
theorem C9_empty_selection_raises :
    runUntilComplete [] =
      Except.error "ValueError: Set of coroutines/Futures is empty." := rfl

/-- C2 (code evaluated at the failing input): the pump's `for line in
child` performs a synchronous pexpect read, so a pumping task blocks the
shared event loop for the rest of a command's duration.  With the
two-command scenario (fast: 0.1 s, exit 0; slow: 2 s, exit 1) and the task
set iterated slow-first, the slow pane is finalized `error` at t = 2 s
before the fast pane receives its `complete` badge — also at t = 2 s,
although the fast process exited at t = 0.1 s.  The claimed ordering holds
only under the fast-first iteration order; `asyncio.wait` turns the task
list into a set, so neither order is guaranteed. -/
theorem C2_blocking_read_serializes_panes :
    Except.map Coord.finLog (runUntilComplete [slowC, fastC]) =
      Except.ok [(20, "python3 /tmp/slow.py", StStatusState.error),
                 (20, "python3 /tmp/fast.py", StStatusState.complete)] ∧
    Except.map Coord.finLog (runUntilComplete [fastC, slowC]) =
      Except.ok [(1, "python3 /tmp/fast.py", StStatusState.complete),
                 (20, "python3 /tmp/slow.py", StStatusState.error)] :=
  ⟨rfl, rfl⟩

end LongRunning

namespace LongRunning

/-- C3 counterexample: the code configures no line retention limit (the
only bound is `st.container(height=300)`, a pixel height).  For a would-be
limit K = 2, after 3 appends the buffer holds all 3 lines, not the last
2: FIFO eviction never happens. -/
theorem C3_no_retention_counterexample :
    (runOne c3demo).pane.map Pane.content = some ["l1\n", "l2\n", "l3\n"] ∧
    (runOne c3demo).pane.map Pane.content ≠ some ["l2\n", "l3\n"] := by
  constructor
  · rfl
  · decide

/-- C3 amended: the pane's buffer is unbounded — after n appends it holds
all n appended lines in order, so it exceeds every would-be retention
limit K smaller than the line count; no FIFO eviction occurs. -/
theorem C3_buffer_unbounded (c : Command) (K : Nat)
    (hspawn : c.spawnOk = true) (hK : K < c.lineEvents.length) :
    ∃ p, (runOne c).pane = some p ∧ p.content = pumpLines c ∧
      K < p.content.length := by
  obtain ⟨-, -, q, hq, hcont, -, -⟩ := runOne_char c hspawn
  refine ⟨q, hq, hcont, ?_⟩
  rw [hcont]
  simpa [pumpLines, eventLines] using hK

/-- Witness for the amended C3: the three-line run retains all three
lines, exceeding the would-be limit 2. -/
theorem C3_buffer_unbounded_witness :
    ∃ p, (runOne c3demo).pane = some p ∧ p.content = pumpLines c3demo ∧
      2 < p.content.length :=
  C3_buffer_unbounded c3demo 2 rfl (by decide)

/-- C4 counterexample: every append empties the widget and calls `st.code`
with the entire accumulated content — the payloads after three appends of
single lines are the full prefixes, not the individual lines, so the whole
historical content is rebuilt and re-rendered on every call. -/
theorem C4_full_replay_counterexample :
    (runOne c4demo).pane.map Pane.renders =
      some ["", "u\n", "u\nv\n", "u\nv\nw\n"] ∧
    (runOne c4demo).pane.map Pane.renders ≠ some ["", "u\n", "v\n", "w\n"] := by
  constructor
  · rfl
  · decide

/-- C4 amended: for every run, the i-th `st.code` payload is the join of
the first i buffered lines — each append replays the entire accumulated
history from scratch (quadratic total render work); no incremental or
batched repaint is implemented. -/
theorem C4_every_append_replays_history (c : Command)
    (hspawn : c.spawnOk = true) :
    (runOne c).pane.map Pane.renders =
      some ((List.range ((pumpLines c).length + 1)).map
        (fun i => String.join ((pumpLines c).take i))) := by
  obtain ⟨-, -, q, hq, -, hrend, -⟩ := runOne_char c hspawn
  rw [hq]
  simp only [Option.map_some', Option.some.injEq]
  rw [hrend, replayRenders_eq]
  rw [List.range_succ_eq_map, List.map_cons, List.map_map]
  congr 1

/-- Witness for the amended C4: the three-line run's render payload list
is the list of joined prefixes. -/
theorem C4_every_append_replays_history_witness :
    (runOne c4demo).pane.map Pane.renders =
      some ((List.range ((pumpLines c4demo).length + 1)).map
        (fun i => String.join ((pumpLines c4demo).take i))) :=
  C4_every_append_replays_history c4demo rfl

/-- C5: on any nonempty selection, `run_until_complete(asyncio.wait(...))`
returns only once the ready queue is drained: every selected command's
task has finished, and every task whose spawn succeeded has pumped its
whole line sequence and carries a terminal `complete` or `error` badge. -/
theorem C5_returns_after_all_panes_terminal (cs : List Command)
    (hne : cs ≠ []) :
    ∃ fin, runUntilComplete cs = Except.ok fin ∧
      fin.queue = [] ∧
      fin.finished.length = cs.length ∧
      ∀ t ∈ fin.finished, t.command.spawnOk = true →
        (t.pane.map Pane.status = some StStatusState.complete ∨
         t.pane.map Pane.status = some StStatusState.error) :=
  runUntilComplete_all_terminal cs hne

/-- Witness for C5: a two-command selection ends with both tasks finished
and badged. -/
theorem C5_returns_after_all_panes_terminal_witness :
    ∃ fin, runUntilComplete [c5a, c5b] = Except.ok fin ∧
      fin.queue = [] ∧
      fin.finished.length = ([c5a, c5b] : List Command).length ∧
      ∀ t ∈ fin.finished, t.command.spawnOk = true →
        (t.pane.map Pane.status = some StStatusState.complete ∨
         t.pane.map Pane.status = some StStatusState.error) :=
  C5_returns_after_all_panes_terminal [c5a, c5b] (by simp)

/-- C6: the failure of one selected command — a spawn failure or a
non-success classified exit — does not abort the sibling tasks or the
coordinator: the run still completes with every task finished, and every
sibling whose spawn succeeded still reaches its own terminal
`complete` or `error` badge. -/
theorem C6_sibling_failure_isolated (cs : List Command) (c : Command)
    (hc : c ∈ cs)
    (_hfail : c.spawnOk = false ∨ classify c.exitstatus = StStatusState.error) :
    ∃ fin, runUntilComplete cs = Except.ok fin ∧
      fin.finished.length = cs.length ∧
      ∀ t ∈ fin.finished, t.command ≠ c → t.command.spawnOk = true →
        (t.pane.map Pane.status = some StStatusState.complete ∨
         t.pane.map Pane.status = some StStatusState.error) := by
  have hne : cs ≠ [] := by
    rintro rfl
    simp at hc
  obtain ⟨fin, hok, hq, hlen, hall⟩ := runUntilComplete_all_terminal cs hne
  exact ⟨fin, hok, hlen, fun t ht _ hspawn => hall t ht hspawn⟩

/-- Witness for C6: with one unspawnable command and one command exiting 2
in the selection, the succeeding sibling still completes. -/
theorem C6_sibling_failure_isolated_witness :
    ∃ fin, runUntilComplete [c6bad, c6err, c6ok] = Except.ok fin ∧
      fin.finished.length = ([c6bad, c6err, c6ok] : List Command).length ∧
      ∀ t ∈ fin.finished, t.command ≠ c6bad → t.command.spawnOk = true →
        (t.pane.map Pane.status = some StStatusState.complete ∨
         t.pane.map Pane.status = some StStatusState.error) :=
  C6_sibling_failure_isolated [c6bad, c6err, c6ok] c6bad (by simp)
    (Or.inl rfl)

/-- C8: a run's pane status passes through exactly one transition: it is
`running` at every scheduling turn until the single badge write, whose
terminal value (`complete` or `error`, never `running`) persists unchanged
for the remaining turns. -/
theorem C8_status_one_shot (c : Command) (hspawn : c.spawnOk = true) :
    statusTrace c =
      List.replicate (c.lineEvents.length + 1) (some StStatusState.running) ++
        List.replicate 2 (some (classify c.exitstatus)) ∧
    classify c.exitstatus ≠ StStatusState.running := by
  constructor
  · have h0 : statusTrace c =
        (some StStatusState.running) ::
          (taskStates (c.lineEvents.length + 2) 0
            ⟨c, .pumping c.lineEvents, some (initPane c)⟩).map
            (fun u => u.pane.map Pane.status) := by
      simp [statusTrace, taskMeasure, mkTask, taskStates, stepTask, hspawn,
        initPane]
    rw [h0, taskStates_pumping c.lineEvents 0
      ⟨c, .pumping c.lineEvents, some (initPane c)⟩ (initPane c) rfl rfl rfl]
    simp [List.replicate_succ]
  · exact classify_ne_running _

/-- Witness for C8: the one-line run's status trace is two `running`
turns followed by two `complete` turns. -/
theorem C8_status_one_shot_witness :
    statusTrace c8demo =
      List.replicate (c8demo.lineEvents.length + 1) (some StStatusState.running) ++
        List.replicate 2 (some (classify c8demo.exitstatus)) ∧
    classify c8demo.exitstatus ≠ StStatusState.running :=
  C8_status_one_shot c8demo rfl

end LongRunning
